import Mathlib

/-!
Verification of the warehouse sparepart locator service (`src/server.js`).

The development shallowly embeds the three request handlers that carry the
service's logic — `GET /api/search`, `GET /api/map` and
`POST /api/admin/rack` — together with the storage accessors `loadDB` /
`saveDB`.  Persistent storage is modelled as a `World` holding the parsed
`db.json` document (`none` when the file is unreadable) and a flag telling
whether writes succeed.  Each handler returns its response, the storage
state after the call, and the list of storage events (loads and saves) it
performed, so that "touches storage" claims are statable.

JavaScript string and number primitives used by the handlers are modelled
for the ASCII fragment the data uses: `jsTrim`, `jsToUpper`, `jsToLower`
mirror `trim` / `toUpperCase` / `toLowerCase`, `jsIncludes` mirrors
`String.prototype.includes`, and `JSNum` is the value space of `Number(...)`
(NaN, the two infinities, or a finite value, with finite values taken as
integers — every numeric literal in the repository is one).
-/

namespace Locator

/-- A JavaScript number as produced by `Number(...)`: NaN, an infinity, or a
finite value (modelled as an integer). -/
inductive JSNum where
  | nan
  | posInf
  | negInf
  | finite (v : Int)
deriving DecidableEq

/-- `Number.isNaN` on a `JSNum`. -/
def JSNum.isNaN : JSNum → Bool
  | .nan => true
  | _ => false

/-- ASCII model of upper-casing one character, as `toUpperCase` does. -/
def jsCharUpper (c : Char) : Char :=
  if 'a' ≤ c ∧ c ≤ 'z' then Char.ofNat (c.toNat - 32) else c

/-- ASCII model of lower-casing one character, as `toLowerCase` does. -/
def jsCharLower (c : Char) : Char :=
  if 'A' ≤ c ∧ c ≤ 'Z' then Char.ofNat (c.toNat + 32) else c

/-- Whitespace recognised by `String.prototype.trim` (ASCII fragment). -/
def jsWhitespaceChar (c : Char) : Bool :=
  c == ' ' || c == '\t' || c == '\n' || c == '\r' || c == '\x0B' || c == '\x0C'

/-- `String.prototype.trim`: drop leading and trailing whitespace. -/
def jsTrim (s : String) : String :=
  ⟨((s.data.dropWhile jsWhitespaceChar).reverse.dropWhile jsWhitespaceChar).reverse⟩

/-- `String.prototype.toUpperCase` (ASCII fragment). -/
def jsToUpper (s : String) : String :=
  ⟨s.data.map jsCharUpper⟩

/-- `String.prototype.toLowerCase` (ASCII fragment). -/
def jsToLower (s : String) : String :=
  ⟨s.data.map jsCharLower⟩

/-- `s.includes(sub)`: substring containment on the character sequences. -/
def jsIncludes (s sub : String) : Bool :=
  decide (sub.data <:+: s.data)

/-- An item record of `db.json`.  `name`, `code` and `rackId` may be absent
(`none`), which the handlers tolerate. -/
structure Item where
  id : String
  name : Option String
  code : Option String
  rackId : Option String
deriving DecidableEq

/-- A rack marker of `db.json`. -/
structure Rack where
  id : String
  code : String
  x : JSNum
  y : JSNum
deriving DecidableEq

/-- The parsed `db.json` document.  The `items` and `racks` arrays may be
absent, which the handlers default to the empty array. -/
structure DB where
  company : Option String
  warehouse : Option String
  items : Option (List Item)
  racks : Option (List Rack)
deriving DecidableEq

/-- The state of persistent storage: the stored document (`none` when
`loadDB` fails, i.e. `db.json` is missing or malformed) and whether
`saveDB`'s write succeeds. -/
structure World where
  store : Option DB
  saveOk : Bool
deriving DecidableEq

/-- A storage access performed by a handler. -/
inductive StorageEvent where
  | load
  | save
deriving DecidableEq

/-- A handler's outcome: its response, the storage state after the call, and
the storage accesses it performed, in order. -/
structure Effected (α : Type) where
  resp : α
  world : World
  events : List StorageEvent
deriving DecidableEq

/-- `loadDB()`: returns the stored document, or `none` on failure. -/
def loadDB (w : World) : Option DB :=
  w.store

/-- `saveDB(db)`: overwrite the stored document; reports success. -/
def saveDB (db : DB) (w : World) : Bool × World :=
  if w.saveOk then (true, { w with store := some db }) else (false, w)

/-- One row of the search response's `results` array. -/
structure ResultRec where
  id : String
  name : Option String
  code : Option String
  rackId : Option String
  rackCode : String
  rackX : Option JSNum
  rackY : Option JSNum
deriving DecidableEq

/-- Response of `GET /api/search`: the empty-query short-circuit, the
storage-failure 500, or the normal `{ok, query, total, results}` body. -/
inductive SearchResp where
  | empty (results : List ResultRec) (message : String)
  | unavailable (message : String)
  | ok (query : String) (total : Nat) (results : List ResultRec)
deriving DecidableEq

/-- Response of `GET /api/map`. -/
inductive MapResp where
  | unavailable (message : String)
  | ok (company warehouse : Option String) (mapFile : String) (racks : List Rack)
deriving DecidableEq

/-- Response of `POST /api/admin/rack`. -/
inductive UpsertResp where
  | invalidInput (message : String)
  | unavailable (message : String)
  | saveFailed (message : String)
  | ok (message : String) (rack : Rack)
deriving DecidableEq

/-- The request body of `POST /api/admin/rack` after JSON parsing: `code` as
given (absent allowed), and `x`, `y` as the results of the handler's
`Number(req.body.x)` / `Number(req.body.y)` coercions (a missing field or a
non-numeric string coerces to NaN; the string "Infinity" coerces to
`posInf`). -/
structure RackBody where
  code : Option String
  x : JSNum
  y : JSNum
deriving DecidableEq

/-- The search handler's query normalization:
`(req.query.q || "").trim().toLowerCase()`. -/
def normQuery (qparam : Option String) : String :=
  jsToLower (jsTrim (qparam.getD ("")))

/-- The admin handler's code normalization:
`(req.body.code || "").trim().toUpperCase()`. -/
def normCode (body : RackBody) : String :=
  jsToUpper (jsTrim (body.code.getD ("")))

/-- The search filter predicate: the normalized query is a substring of the
lower-cased `name` or of the lower-cased `code` (absent fields default to ""). -/
def itemMatches (q : String) (it : Item) : Bool :=
  jsIncludes (jsToLower (it.name.getD (""))) q ||
    jsIncludes (jsToLower (it.code.getD (""))) q

/-- The search join: look up the matching item's rack with
`racks.find(r => r.id === it.rackId)`; on a miss attach code "-" and null
coordinates. -/
def renderItem (racks : List Rack) (it : Item) : ResultRec :=
  match racks.find? (fun r => it.rackId == some r.id) with
  | some rack => ⟨it.id, it.name, it.code, it.rackId, rack.code, some rack.x, some rack.y⟩
  | none => ⟨it.id, it.name, it.code, it.rackId, ("-"), none, none⟩

/-- The `GET /api/search` handler. -/
def searchHandler (qparam : Option String) (w : World) : Effected SearchResp :=
  let q := normQuery qparam
  if q = "" then
    ⟨.empty [] ("Query kosong"), w, []⟩
  else
    match loadDB w with
    | none => ⟨.unavailable ("DB tidak bisa dibaca"), w, [.load]⟩
    | some db =>
      let items := db.items.getD []
      let racks := db.racks.getD []
      let results := (items.filter (itemMatches q)).map (renderItem racks)
      ⟨.ok q results.length results, w, [.load]⟩

/-- The `GET /api/map` handler. -/
def mapHandler (w : World) : Effected MapResp :=
  match loadDB w with
  | none => ⟨.unavailable ("DB tidak bisa dibaca"), w, [.load]⟩
  | some db =>
    ⟨.ok db.company db.warehouse ("/maps/warehouse.svg") (db.racks.getD []), w, [.load]⟩

/-- In-place mutation of the rack found by `db.racks.find(r => r.code === code)`:
the first rack whose stored code equals the normalized code gets the new
coordinates; everything else is untouched. -/
def updateFirst (racks : List Rack) (code : String) (x y : JSNum) : List Rack :=
  match racks with
  | [] => []
  | r :: rs =>
    if r.code = code then { r with x := x, y := y } :: rs
    else r :: updateFirst rs code x y

/-- The `POST /api/admin/rack` handler. -/
def upsertRack (body : RackBody) (w : World) : Effected UpsertResp :=
  let code := normCode body
  let x := body.x
  let y := body.y
  if (code == "") || x.isNaN || y.isNaN then
    ⟨.invalidInput ("Data tidak valid. Pastikan code, x, y ada."), w, []⟩
  else
    match loadDB w with
    | none => ⟨.unavailable ("DB tidak bisa dibaca"), w, [.load]⟩
    | some db =>
      let racks := db.racks.getD []
      let found := racks.find? (fun r => r.code == code)
      let rack :=
        match found with
        | none => ({ id := ("R-") ++ code, code := code, x := x, y := y } : Rack)
        | some r0 => { r0 with x := x, y := y }
      let racks' :=
        match found with
        | none => racks ++ [({ id := ("R-") ++ code, code := code, x := x, y := y } : Rack)]
        | some _ => updateFirst racks code x y
      let db' := { db with racks := some racks' }
      match saveDB db' w with
      | (true, w') =>
        ⟨.ok (("Rack ") ++ code ++ (" berhasil disimpan")) rack, w', [.load, .save]⟩
      | (false, w') => ⟨.saveFailed ("Gagal menyimpan DB"), w', [.load, .save]⟩

/-- Sample item from the spec's end-to-end scenario. -/
def sampleItem : Item := ⟨"I1", some ("Bolt M6"), some ("BLT6"), some ("R-A01")⟩

/-- Sample rack from the spec's end-to-end scenario. -/
def sampleRack : Rack := ⟨"R-A01", "A01", .finite 10, .finite 20⟩

/-- Sample dataset from the spec's end-to-end scenario. -/
def sampleDB : DB := ⟨none, none, some [sampleItem], some [sampleRack]⟩

/-- An item whose `rackId` references no existing rack. -/
def dangleItem : Item := ⟨"I2", some ("Bolt M8"), some ("BLT8"), some ("R-999")⟩

/-- A dataset with a dangling rack reference. -/
def dangleDB : DB := ⟨none, none, some [dangleItem], some [sampleRack]⟩

theorem JSNum.isNaN_eq_false_of_ne {x : JSNum} (h : x ≠ .nan) : x.isNaN = false := by
  cases x
  · exact absurd rfl h
  · rfl
  · rfl
  · rfl

theorem find?_split {α : Type} {p : α → Bool} {l : List α} {a : α}
    (h : l.find? p = some a) :
    p a = true ∧ ∃ l₁ l₂, l = l₁ ++ a :: l₂ ∧ ∀ x ∈ l₁, p x = false := by
  induction l with
  | nil => simp [List.find?] at h
  | cons b bs ih =>
    by_cases hb : p b
    · rw [List.find?_cons_of_pos _ hb] at h
      cases h
      exact ⟨hb, [], bs, rfl, by simp⟩
    · rw [List.find?_cons_of_neg _ hb] at h
      obtain ⟨hpa, l₁, l₂, rfl, hmiss⟩ := ih h
      refine ⟨hpa, b :: l₁, l₂, rfl, ?_⟩
      intro x hx
      rcases List.mem_cons.mp hx with rfl | hx
      · exact Bool.eq_false_iff.mpr hb
      · exact hmiss x hx

theorem find?_first_match (l₂ : List Rack) {c : String} {l₁ : List Rack} {r0 : Rack}
    (hmiss : ∀ r ∈ l₁, r.code ≠ c) (hhit : r0.code = c) :
    (l₁ ++ r0 :: l₂).find? (fun r => r.code == c) = some r0 := by
  induction l₁ with
  | nil => simp [List.find?_cons_of_pos, hhit]
  | cons b bs ih =>
    rw [List.cons_append, List.find?_cons_of_neg]
    · exact ih fun r hr => hmiss r (List.mem_cons_of_mem b hr)
    · simp [hmiss b (List.mem_cons_self b bs)]

theorem updateFirst_append {c : String} {x y : JSNum} {l₁ l₂ : List Rack} {r0 : Rack}
    (hmiss : ∀ r ∈ l₁, r.code ≠ c) (hhit : r0.code = c) :
    updateFirst (l₁ ++ r0 :: l₂) c x y = l₁ ++ { r0 with x := x, y := y } :: l₂ := by
  induction l₁ with
  | nil => simp [updateFirst, hhit]
  | cons b bs ih =>
    rw [List.cons_append, updateFirst, if_neg (hmiss b (List.mem_cons_self b bs)),
      ih fun r hr => hmiss r (List.mem_cons_of_mem b hr), List.cons_append]

theorem updateFirst_map_code (racks : List Rack) (c : String) (x y : JSNum) :
    (updateFirst racks c x y).map Rack.code = racks.map Rack.code := by
  induction racks with
  | nil => rfl
  | cons b bs ih =>
    rw [updateFirst]
    by_cases hb : b.code = c
    · simp [hb]
    · simp [hb, ih]

theorem renderItem_id (racks : List Rack) (it : Item) : (renderItem racks it).id = it.id := by
  unfold renderItem
  cases racks.find? (fun r => it.rackId == some r.id) <;> rfl

theorem renderItem_name (racks : List Rack) (it : Item) :
    (renderItem racks it).name = it.name := by
  unfold renderItem
  cases racks.find? (fun r => it.rackId == some r.id) <;> rfl

theorem renderItem_code (racks : List Rack) (it : Item) :
    (renderItem racks it).code = it.code := by
  unfold renderItem
  cases racks.find? (fun r => it.rackId == some r.id) <;> rfl

theorem renderItem_rackId (racks : List Rack) (it : Item) :
    (renderItem racks it).rackId = it.rackId := by
  unfold renderItem
  cases racks.find? (fun r => it.rackId == some r.id) <;> rfl

theorem renderItem_inj {racks : List Rack} {it it' : Item}
    (h : renderItem racks it = renderItem racks it') : it = it' := by
  have h1 : it.id = it'.id := by
    rw [← renderItem_id racks it, ← renderItem_id racks it', h]
  have h2 : it.name = it'.name := by
    rw [← renderItem_name racks it, ← renderItem_name racks it', h]
  have h3 : it.code = it'.code := by
    rw [← renderItem_code racks it, ← renderItem_code racks it', h]
  have h4 : it.rackId = it'.rackId := by
    rw [← renderItem_rackId racks it, ← renderItem_rackId racks it', h]
  cases it; cases it'; simp_all

theorem upsert_eq_of_found (body : RackBody) (db : DB)
    (l₁ l₂ : List Rack) (r0 : Rack)
    (hcode : normCode body ≠ "") (hx : body.x ≠ .nan) (hy : body.y ≠ .nan)
    (hracks : db.racks.getD [] = l₁ ++ r0 :: l₂)
    (hmiss : ∀ r ∈ l₁, r.code ≠ normCode body)
    (hhit : r0.code = normCode body) :
    upsertRack body ⟨some db, true⟩ =
      ⟨.ok (("Rack ") ++ normCode body ++ (" berhasil disimpan"))
          { r0 with x := body.x, y := body.y },
        ⟨some { db with racks := some (l₁ ++ { r0 with x := body.x, y := body.y } :: l₂) },
          true⟩,
        [.load, .save]⟩ := by
  have hguard : ((normCode body == "") || body.x.isNaN || body.y.isNaN) = false := by
    rw [beq_eq_false_iff_ne.mpr hcode, JSNum.isNaN_eq_false_of_ne hx,
      JSNum.isNaN_eq_false_of_ne hy]
    rfl
  have hfind := find?_first_match l₂ hmiss hhit
  simp only [upsertRack, loadDB, hguard, Bool.false_eq_true, if_false, hracks, hfind,
    updateFirst_append hmiss hhit, saveDB]
  rfl

theorem upsert_eq_of_not_found (body : RackBody) (db : DB)
    (hcode : normCode body ≠ "") (hx : body.x ≠ .nan) (hy : body.y ≠ .nan)
    (hmiss : ∀ r ∈ db.racks.getD [], r.code ≠ normCode body) :
    upsertRack body ⟨some db, true⟩ =
      ⟨.ok (("Rack ") ++ normCode body ++ (" berhasil disimpan"))
          ⟨("R-") ++ normCode body, normCode body, body.x, body.y⟩,
        ⟨some { db with racks := some (db.racks.getD [] ++ [⟨("R-") ++ normCode body, normCode body, body.x, body.y⟩]) },
          true⟩,
        [.load, .save]⟩ := by
  have hguard : ((normCode body == "") || body.x.isNaN || body.y.isNaN) = false := by
    rw [beq_eq_false_iff_ne.mpr hcode, JSNum.isNaN_eq_false_of_ne hx,
      JSNum.isNaN_eq_false_of_ne hy]
    rfl
  have hfind : (db.racks.getD []).find? (fun r => r.code == normCode body) = none :=
    List.find?_eq_none.mpr fun r hr => by simp [hmiss r hr]
  simp only [upsertRack, loadDB, hguard, Bool.false_eq_true, if_false, hfind, saveDB]
  rfl

/-- C1 (amended): the admin upsert signals InvalidInput — with no load, no
save, and the stored dataset untouched — exactly when the trimmed
upper-cased code is empty or `Number(x)` or `Number(y)` is NaN; the code
checks `Number.isNaN`, not finiteness, so this is the precise validation
condition, and whenever it fails to hold the response is never
InvalidInput. -/
theorem upsert_validation_nan (body : RackBody) (w : World) :
    (upsertRack body w =
        ⟨.invalidInput ("Data tidak valid. Pastikan code, x, y ada."), w, []⟩ ↔
      (normCode body = "" ∨ body.x = .nan ∨ body.y = .nan)) ∧
    (∀ msg, (upsertRack body w).resp = .invalidInput msg →
      (normCode body = "" ∨ body.x = .nan ∨ body.y = .nan)) := by
  by_cases hcond : normCode body = "" ∨ body.x = .nan ∨ body.y = .nan
  · have hguard : ((normCode body == "") || body.x.isNaN || body.y.isNaN) = true := by
      rcases hcond with h | h | h
      · simp [h]
      · simp [h, JSNum.isNaN]
      · simp [h, JSNum.isNaN]
    constructor
    · simp [upsertRack, hguard, hcond]
    · intro msg hmsg
      exact hcond
  · push_neg at hcond
    obtain ⟨h1, h2, h3⟩ := hcond
    have hguard : ((normCode body == "") || body.x.isNaN || body.y.isNaN) = false := by
      rw [beq_eq_false_iff_ne.mpr h1, JSNum.isNaN_eq_false_of_ne h2,
        JSNum.isNaN_eq_false_of_ne h3]
      rfl
    obtain ⟨store, sOk⟩ := w
    cases store with
    | none =>
      constructor
      · simp [upsertRack, loadDB, hguard, h1, h2, h3]
      · intro msg hmsg
        simp [upsertRack, loadDB, hguard] at hmsg
    | some db =>
      cases sOk with
      | false =>
        constructor
        · simp [upsertRack, loadDB, hguard, saveDB, h1, h2, h3]
        · intro msg hmsg
          simp [upsertRack, loadDB, hguard, saveDB] at hmsg
      | true =>
        constructor
        · simp [upsertRack, loadDB, hguard, saveDB, h1, h2, h3]
        · intro msg hmsg
          simp [upsertRack, loadDB, hguard, saveDB] at hmsg

/-- C1 witness: a blank code is rejected with no storage access even when
storage is unreadable. -/
theorem upsert_validation_nan_witness :
    upsertRack ⟨some (" "), JSNum.finite 1, JSNum.finite 2⟩ ⟨none, true⟩ =
      ⟨.invalidInput ("Data tidak valid. Pastikan code, x, y ada."), ⟨none, true⟩, []⟩ :=
  (upsert_validation_nan ⟨some (" "), JSNum.finite 1, JSNum.finite 2⟩ ⟨none, true⟩).1.mpr
    (by decide)

/-- C1 counterexample: `x = Infinity` does not parse to a finite number, yet
validation passes — the handler loads, saves, and stores the rack with an
infinite coordinate, contradicting the claim that non-finite inputs are
rejected before any storage access. -/
theorem upsert_accepts_infinite_coordinate :
    upsertRack ⟨some ("A01"), JSNum.posInf, JSNum.finite 0⟩
        ⟨some ⟨none, none, none, some []⟩, true⟩ =
      ⟨.ok ("Rack A01 berhasil disimpan") ⟨"R-A01", "A01", JSNum.posInf, JSNum.finite 0⟩,
        ⟨some ⟨none, none, none, some [⟨"R-A01", "A01", JSNum.posInf, JSNum.finite 0⟩]⟩,
          true⟩,
        [.load, .save]⟩ := by
  decide

/-- C2 (amended): when the normalized (trimmed, upper-cased) input code
exactly equals some stored rack's code — which is how the handler compares,
so matching is case-insensitive in the input but case-sensitive in the
stored code — a valid upsert mutates the first such rack's `x` and `y` in
place, keeps its `id` and `code`, leaves every other rack and all items
unchanged, and appends nothing. -/
theorem upsert_update_in_place (body : RackBody) (w : World) (db : DB)
    (l₁ l₂ : List Rack) (r0 : Rack)
    (hcode : normCode body ≠ "") (hx : body.x ≠ .nan) (hy : body.y ≠ .nan)
    (hdb : w.store = some db) (hsave : w.saveOk = true)
    (hracks : db.racks.getD [] = l₁ ++ r0 :: l₂)
    (hmiss : ∀ r ∈ l₁, r.code ≠ normCode body)
    (hhit : r0.code = normCode body) :
    upsertRack body w =
      ⟨.ok (("Rack ") ++ normCode body ++ (" berhasil disimpan"))
          { r0 with x := body.x, y := body.y },
        ⟨some { db with racks := some (l₁ ++ { r0 with x := body.x, y := body.y } :: l₂) },
          true⟩,
        [.load, .save]⟩ := by
  obtain ⟨store, sOk⟩ := w
  cases hdb
  cases hsave
  exact upsert_eq_of_found body db l₁ l₂ r0 hcode hx hy hracks hmiss hhit

/-- C2 witness: the spec's own example — rack "A01" at (10, 20), upsert with
code "a01", x = 99, y = 5 updates that rack in place and creates no second
rack. -/
theorem upsert_update_in_place_witness :
    upsertRack ⟨some ("a01"), .finite 99, .finite 5⟩
        ⟨some ⟨none, none, none, some [⟨"R-A01", "A01", .finite 10, .finite 20⟩]⟩, true⟩ =
      ⟨.ok ("Rack A01 berhasil disimpan") ⟨"R-A01", "A01", .finite 99, .finite 5⟩,
        ⟨some ⟨none, none, none, some [⟨"R-A01", "A01", .finite 99, .finite 5⟩]⟩, true⟩,
        [.load, .save]⟩ :=
  upsert_update_in_place ⟨some ("a01"), .finite 99, .finite 5⟩
    ⟨some ⟨none, none, none, some [⟨"R-A01", "A01", .finite 10, .finite 20⟩]⟩, true⟩
    ⟨none, none, none, some [⟨"R-A01", "A01", .finite 10, .finite 20⟩]⟩
    [] [] ⟨"R-A01", "A01", .finite 10, .finite 20⟩
    (by decide) (by decide) (by decide) rfl rfl (by decide) (by decide) (by decide)

/-- C2 counterexample: the handler compares the upper-cased input against
the stored code with strict equality, so a stored lower-case code "a01"
matched case-insensitively by input "a01" is NOT updated — a second rack is
appended and the original keeps (10, 20); and with two stored racks of the
same code, only the first is mutated. -/
theorem upsert_case_mismatch_appends :
    upsertRack ⟨some ("a01"), .finite 99, .finite 5⟩
        ⟨some ⟨none, none, none, some [⟨"R-a01", "a01", .finite 10, .finite 20⟩]⟩, true⟩ =
      ⟨.ok ("Rack A01 berhasil disimpan") ⟨"R-A01", "A01", .finite 99, .finite 5⟩,
        ⟨some ⟨none, none, none, some [⟨"R-a01", "a01", .finite 10, .finite 20⟩,
          ⟨"R-A01", "A01", .finite 99, .finite 5⟩]⟩, true⟩,
        [.load, .save]⟩ ∧
    upsertRack ⟨some ("A01"), .finite 9, .finite 9⟩
        ⟨some ⟨none, none, none, some [⟨"R1", "A01", .finite 1, .finite 1⟩,
          ⟨"R2", "A01", .finite 2, .finite 2⟩]⟩, true⟩ =
      ⟨.ok ("Rack A01 berhasil disimpan") ⟨"R1", "A01", .finite 9, .finite 9⟩,
        ⟨some ⟨none, none, none, some [⟨"R1", "A01", .finite 9, .finite 9⟩,
          ⟨"R2", "A01", .finite 2, .finite 2⟩]⟩, true⟩,
        [.load, .save]⟩ := by
  constructor
  · decide
  · decide

/-- C3: for a non-empty normalized query and readable storage, search
answers with the normalized query echoed back, a total equal to the number
of results, and a result set that contains a dataset item's rendering
exactly when the query is a substring of its lower-cased name or lower-cased
code, in dataset order (the result sequence is a sublist of the rendered
dataset sequence). -/
theorem search_filter_sound_complete (qparam : String) (w : World) (db : DB)
    (hdb : w.store = some db) (hq : normQuery (some qparam) ≠ "") :
    ∃ results : List ResultRec,
      searchHandler (some qparam) w =
        ⟨.ok (normQuery (some qparam)) results.length results, w, [.load]⟩ ∧
      (∀ it ∈ db.items.getD [],
        (renderItem (db.racks.getD []) it ∈ results ↔
          ((normQuery (some qparam)).data <:+: (jsToLower (it.name.getD (""))).data ∨
            (normQuery (some qparam)).data <:+: (jsToLower (it.code.getD (""))).data))) ∧
      results.Sublist ((db.items.getD []).map (renderItem (db.racks.getD []))) := by
  obtain ⟨store, sOk⟩ := w
  cases hdb
  refine ⟨((db.items.getD []).filter (itemMatches (normQuery (some qparam)))).map
      (renderItem (db.racks.getD [])), ?_, ?_, ?_⟩
  · simp [searchHandler, loadDB, hq]
  · intro it hit
    constructor
    · intro hmem
      obtain ⟨it', hit', heq⟩ := List.mem_map.mp hmem
      have hmatch := (List.mem_filter.mp hit').2
      cases renderItem_inj heq
      simpa [itemMatches, jsIncludes] using hmatch
    · intro hpred
      refine List.mem_map_of_mem _ (List.mem_filter.mpr ⟨hit, ?_⟩)
      simpa [itemMatches, jsIncludes] using hpred
  · exact List.Sublist.map _ (List.filter_sublist _)

/-- C3 witness: the spec's end-to-end dataset with query " M6". -/
theorem search_filter_sound_complete_witness :
    (⟨some sampleDB, true⟩ : World).store = some sampleDB ∧
    normQuery (some (" M6")) ≠ "" ∧
    ∃ results : List ResultRec,
      searchHandler (some (" M6")) ⟨some sampleDB, true⟩ =
        ⟨.ok (normQuery (some (" M6"))) results.length results, ⟨some sampleDB, true⟩,
          [.load]⟩ ∧
      (∀ it ∈ sampleDB.items.getD [],
        (renderItem (sampleDB.racks.getD []) it ∈ results ↔
          ((normQuery (some (" M6"))).data <:+: (jsToLower (it.name.getD (""))).data ∨
            (normQuery (some (" M6"))).data <:+: (jsToLower (it.code.getD (""))).data))) ∧
      results.Sublist ((sampleDB.items.getD []).map (renderItem (sampleDB.racks.getD []))) :=
  ⟨rfl, by decide,
    search_filter_sound_complete (" M6") ⟨some sampleDB, true⟩ sampleDB rfl (by decide)⟩

/-- C4 (amended): exact uniqueness of `Rack.code` is preserved, not
established, by the admin upsert — if the stored rack codes are pairwise
distinct before a call, they are pairwise distinct in whatever dataset the
call leaves in storage.  It fails for datasets that already contain
duplicates, and distinctness is as exact strings, not under case-insensitive
keying. -/
theorem upsert_preserves_code_nodup (body : RackBody) (w : World) (db db' : DB)
    (hdb : w.store = some db)
    (hnodup : ((db.racks.getD []).map Rack.code).Nodup)
    (hdb' : (upsertRack body w).world.store = some db') :
    ((db'.racks.getD []).map Rack.code).Nodup := by
  obtain ⟨store, sOk⟩ := w
  cases hdb
  by_cases hguard : ((normCode body == "") || body.x.isNaN || body.y.isNaN) = true
  · simp only [upsertRack, loadDB, hguard, if_true] at hdb'
    cases Option.some.inj hdb'
    exact hnodup
  · have hguardf : ((normCode body == "") || body.x.isNaN || body.y.isNaN) = false :=
      Bool.eq_false_iff.mpr hguard
    cases sOk with
    | false =>
      cases hfind : (db.racks.getD []).find? (fun r => r.code == normCode body) with
      | none =>
        simp only [upsertRack, loadDB, hguardf, Bool.false_eq_true, if_false, hfind,
          saveDB] at hdb'
        cases Option.some.inj hdb'
        exact hnodup
      | some r0 =>
        simp only [upsertRack, loadDB, hguardf, Bool.false_eq_true, if_false, hfind,
          saveDB] at hdb'
        cases Option.some.inj hdb'
        exact hnodup
    | true =>
      cases hfind : (db.racks.getD []).find? (fun r => r.code == normCode body) with
      | none =>
        simp only [upsertRack, loadDB, hguardf, Bool.false_eq_true, if_false, hfind,
          saveDB] at hdb'
        cases Option.some.inj hdb'
        have hnotmem : normCode body ∉ (db.racks.getD []).map Rack.code := by
          intro hmem
          obtain ⟨r, hr, hrc⟩ := List.mem_map.mp hmem
          have := List.find?_eq_none.mp hfind r hr
          simp [hrc] at this
        simp only [Option.getD_some, List.map_append, List.map_cons, List.map_nil]
        exact List.Nodup.append hnodup (List.nodup_singleton _)
          (by simpa [List.disjoint_singleton] using hnotmem)
      | some r0 =>
        simp only [upsertRack, loadDB, hguardf, Bool.false_eq_true, if_false, hfind,
          saveDB] at hdb'
        cases Option.some.inj hdb'
        simpa only [Option.getD_some, updateFirst_map_code] using hnodup

/-- C4 witness: upserting "B02" into the sample dataset (codes already
distinct) keeps the codes distinct. -/
theorem upsert_preserves_code_nodup_witness :
    ((sampleDB.racks.getD []).map Rack.code).Nodup ∧
    ((((⟨none, none, some [sampleItem],
        some [sampleRack, ⟨"R-B02", "B02", .finite 5, .finite 5⟩]⟩ : DB)).racks.getD
        []).map Rack.code).Nodup :=
  ⟨by decide,
    upsert_preserves_code_nodup ⟨some ("B02"), .finite 5, .finite 5⟩ ⟨some sampleDB, true⟩
      sampleDB
      ⟨none, none, some [sampleItem], some [sampleRack, ⟨"R-B02", "B02", .finite 5, .finite 5⟩]⟩
      rfl (by decide) (by decide)⟩

/-- C4 counterexample: a dataset that already holds two racks with code
"A01" still holds them after a successful upsert of "B02" — the upsert does
not make codes unique for every dataset. -/
theorem upsert_duplicate_codes_persist :
    upsertRack ⟨some ("B02"), .finite 1, .finite 1⟩
        ⟨some ⟨none, none, none, some [⟨"R-A01", "A01", .finite 0, .finite 0⟩,
          ⟨"R2", "A01", .finite 3, .finite 3⟩]⟩, true⟩ =
      ⟨.ok ("Rack B02 berhasil disimpan") ⟨"R-B02", "B02", .finite 1, .finite 1⟩,
        ⟨some ⟨none, none, none, some [⟨"R-A01", "A01", .finite 0, .finite 0⟩,
          ⟨"R2", "A01", .finite 3, .finite 3⟩, ⟨"R-B02", "B02", .finite 1, .finite 1⟩]⟩,
          true⟩,
        [.load, .save]⟩ ∧
    ¬ ((((⟨none, none, none, some [⟨"R-A01", "A01", .finite 0, .finite 0⟩,
          ⟨"R2", "A01", .finite 3, .finite 3⟩, ⟨"R-B02", "B02", .finite 1, .finite 1⟩]⟩ :
          DB)).racks.getD []).map Rack.code).Nodup := by
  constructor
  · decide
  · decide

/-- C5: when no stored rack's code equals the normalized input code, a valid
upsert appends exactly one new rack with id "R-" plus the normalized code,
the normalized code, and the given coordinates, at the end of the racks
sequence, leaving the existing racks and all items unchanged. -/
theorem upsert_creates_new_rack (body : RackBody) (w : World) (db : DB)
    (hcode : normCode body ≠ "") (hx : body.x ≠ .nan) (hy : body.y ≠ .nan)
    (hdb : w.store = some db) (hsave : w.saveOk = true)
    (hmiss : ∀ r ∈ db.racks.getD [], r.code ≠ normCode body) :
    upsertRack body w =
      ⟨.ok (("Rack ") ++ normCode body ++ (" berhasil disimpan"))
          ⟨("R-") ++ normCode body, normCode body, body.x, body.y⟩,
        ⟨some { db with racks := some (db.racks.getD [] ++ [⟨("R-") ++ normCode body, normCode body, body.x, body.y⟩]) },
          true⟩,
        [.load, .save]⟩ := by
  obtain ⟨store, sOk⟩ := w
  cases hdb
  cases hsave
  exact upsert_eq_of_not_found body db hcode hx hy hmiss

/-- C5 witness: the spec's creation example — no rack "B02", upsert creates
exactly {id "R-B02", code "B02", x 5, y 5}. -/
theorem upsert_creates_new_rack_witness :
    upsertRack ⟨some ("B02"), .finite 5, .finite 5⟩ ⟨some ⟨none, none, none, some []⟩, true⟩ =
      ⟨.ok ("Rack B02 berhasil disimpan") ⟨"R-B02", "B02", .finite 5, .finite 5⟩,
        ⟨some ⟨none, none, none, some [⟨"R-B02", "B02", .finite 5, .finite 5⟩]⟩, true⟩,
        [.load, .save]⟩ :=
  upsert_creates_new_rack ⟨some ("B02"), .finite 5, .finite 5⟩
    ⟨some ⟨none, none, none, some []⟩, true⟩ ⟨none, none, none, some []⟩
    (by decide) (by decide) (by decide) rfl rfl (by decide)

/-- C6: a matching item whose `rackId` equals no rack's id still appears in
the search results, rendered with rack code "-" and null coordinates, and
the search still succeeds. -/
theorem search_dangling_rack_placeholder (qparam : String) (w : World) (db : DB) (it : Item)
    (hdb : w.store = some db) (hq : normQuery (some qparam) ≠ "")
    (hit : it ∈ db.items.getD [])
    (hmatch : itemMatches (normQuery (some qparam)) it = true)
    (hdangle : ∀ r ∈ db.racks.getD [], it.rackId ≠ some r.id) :
    ∃ total results,
      searchHandler (some qparam) w =
        ⟨.ok (normQuery (some qparam)) total results, w, [.load]⟩ ∧
      (⟨it.id, it.name, it.code, it.rackId, ("-"), none, none⟩ : ResultRec) ∈ results := by
  obtain ⟨store, sOk⟩ := w
  cases hdb
  refine ⟨(((db.items.getD []).filter (itemMatches (normQuery (some qparam)))).map
      (renderItem (db.racks.getD []))).length,
    ((db.items.getD []).filter (itemMatches (normQuery (some qparam)))).map
      (renderItem (db.racks.getD [])), by simp [searchHandler, loadDB, hq], ?_⟩
  have hfind : (db.racks.getD []).find? (fun r => it.rackId == some r.id) = none :=
    List.find?_eq_none.mpr fun r hr => by simp [hdangle r hr]
  have hrender : renderItem (db.racks.getD []) it =
      ⟨it.id, it.name, it.code, it.rackId, ("-"), none, none⟩ := by
    unfold renderItem
    rw [hfind]
  rw [← hrender]
  exact List.mem_map_of_mem _ (List.mem_filter.mpr ⟨hit, hmatch⟩)

/-- C6 witness: an item referencing the nonexistent rack "R-999" shows up in
the results of a matching search with placeholder rack data. -/
theorem search_dangling_rack_placeholder_witness :
    itemMatches (normQuery (some (" M8"))) dangleItem = true ∧
    ∃ total results,
      searchHandler (some (" M8")) ⟨some dangleDB, true⟩ =
        ⟨.ok (normQuery (some (" M8"))) total results, ⟨some dangleDB, true⟩, [.load]⟩ ∧
      (⟨dangleItem.id, dangleItem.name, dangleItem.code, dangleItem.rackId, ("-"), none,
        none⟩ : ResultRec) ∈ results :=
  ⟨by decide,
    search_dangling_rack_placeholder (" M8") ⟨some dangleDB, true⟩ dangleDB dangleItem rfl
      (by decide) (by decide) (by decide) (by decide)⟩

/-- C7: a query that is empty after trimming short-circuits — the handler
returns the distinct empty-query message with an empty result set, performs
no storage access, and leaves the world untouched, whatever the storage
state. -/
theorem search_empty_query_short_circuit (qparam : Option String) (w : World)
    (hq : normQuery qparam = "") :
    searchHandler qparam w = ⟨.empty [] ("Query kosong"), w, []⟩ := by
  simp [searchHandler, hq]

/-- C7 witness: a whitespace-only query short-circuits even when storage is
unreadable. -/
theorem search_empty_query_witness :
    normQuery (some ("   ")) = "" ∧
    searchHandler (some ("   ")) ⟨none, false⟩ =
      ⟨.empty [] ("Query kosong"), ⟨none, false⟩, []⟩ :=
  ⟨by decide, search_empty_query_short_circuit (some ("   ")) ⟨none, false⟩ (by decide)⟩

/-- C8 (amended): provided the dataset initially holds at most one rack
whose code equals the normalized input code, calling a valid upsert twice
with the same code and coordinates leaves exactly one rack with that code,
bearing those coordinates.  (Without that proviso pre-existing duplicates
survive both calls.) -/
theorem upsert_idempotent (body : RackBody) (w : World) (db : DB)
    (hcode : normCode body ≠ "") (hx : body.x ≠ .nan) (hy : body.y ≠ .nan)
    (hdb : w.store = some db) (hsave : w.saveOk = true)
    (hdup : ((db.racks.getD []).filter (fun r => r.code == normCode body)).length ≤ 1) :
    ∃ db₂ rid,
      (upsertRack body (upsertRack body w).world).world.store = some db₂ ∧
      (db₂.racks.getD []).filter (fun r => r.code == normCode body) =
        [⟨rid, normCode body, body.x, body.y⟩] := by
  obtain ⟨store, sOk⟩ := w
  cases hdb
  cases hsave
  cases hfind : (db.racks.getD []).find? (fun r => r.code == normCode body) with
  | none =>
    have hmiss : ∀ r ∈ db.racks.getD [], r.code ≠ normCode body := fun r hr => by
      have := List.find?_eq_none.mp hfind r hr
      simpa using this
    have h1 := upsert_eq_of_not_found body db hcode hx hy hmiss
    rw [h1]
    have h2 := upsert_eq_of_found body
      { db with racks := some (db.racks.getD [] ++ [⟨("R-") ++ normCode body, normCode body, body.x, body.y⟩]) }
      (db.racks.getD []) ([])
      ⟨("R-") ++ normCode body, normCode body, body.x, body.y⟩
      hcode hx hy (by simp) hmiss rfl
    rw [h2]
    refine ⟨_, ("R-") ++ normCode body, rfl, ?_⟩
    simp only [Option.getD_some, List.filter_append]
    rw [List.filter_eq_nil_iff.mpr fun r hr => by simp [hmiss r hr]]
    simp
  | some r0 =>
    obtain ⟨hp0, l₁, l₂, hdecomp, hmissb⟩ := find?_split hfind
    have hhit : r0.code = normCode body := by simpa using hp0
    have hmiss : ∀ r ∈ l₁, r.code ≠ normCode body := fun r hr => by
      have := hmissb r hr
      simpa using this
    have hl₂ : ∀ r ∈ l₂, r.code ≠ normCode body := by
      have hlen : ((db.racks.getD []).filter
          (fun r => r.code == normCode body)).length ≤ 1 := hdup
      rw [hdecomp, List.filter_append,
        List.filter_cons_of_pos (p := fun r : Rack => r.code == normCode body) hp0,
        List.filter_eq_nil_iff.mpr fun r hr => by simp [hmissb r hr]] at hlen
      simp only [List.nil_append, List.length_cons] at hlen
      have hnil : l₂.filter (fun r => r.code == normCode body) = [] :=
        List.eq_nil_of_length_eq_zero (by omega)
      intro r hr hc
      have hmem : r ∈ l₂.filter (fun r => r.code == normCode body) :=
        List.mem_filter.mpr ⟨hr, by simp [hc]⟩
      rw [hnil] at hmem
      exact (List.not_mem_nil r) hmem
    have h1 := upsert_eq_of_found body db l₁ l₂ r0 hcode hx hy hdecomp hmiss hhit
    rw [h1]
    have h2 := upsert_eq_of_found body
      { db with racks := some (l₁ ++ { r0 with x := body.x, y := body.y } :: l₂) }
      l₁ l₂ { r0 with x := body.x, y := body.y }
      hcode hx hy (by simp) hmiss hhit
    rw [h2]
    refine ⟨_, r0.id, rfl, ?_⟩
    simp only [Option.getD_some, List.filter_append]
    rw [List.filter_eq_nil_iff.mpr fun r hr => by simp [hmiss r hr],
      List.filter_cons_of_pos (p := fun r : Rack => r.code == normCode body)
        (by simpa using hhit),
      List.filter_eq_nil_iff.mpr fun r hr => by simp [hl₂ r hr]]
    simp [hhit]

/-- C8 witness: upserting "A01" at (1, 2) twice into an empty racks list
leaves exactly one rack with that code and those coordinates. -/
theorem upsert_idempotent_witness :
    ((((⟨none, none, none, some []⟩ : DB)).racks.getD []).filter
        (fun r => r.code == normCode ⟨some ("A01"), .finite 1, .finite 2⟩)).length ≤ 1 ∧
    ∃ db₂ rid,
      (upsertRack ⟨some ("A01"), .finite 1, .finite 2⟩
          (upsertRack ⟨some ("A01"), .finite 1, .finite 2⟩
            ⟨some ⟨none, none, none, some []⟩, true⟩).world).world.store = some db₂ ∧
      (db₂.racks.getD []).filter
          (fun r => r.code == normCode ⟨some ("A01"), .finite 1, .finite 2⟩) =
        [⟨rid, normCode ⟨some ("A01"), .finite 1, .finite 2⟩, .finite 1, .finite 2⟩] :=
  ⟨by decide,
    upsert_idempotent ⟨some ("A01"), .finite 1, .finite 2⟩
      ⟨some ⟨none, none, none, some []⟩, true⟩ ⟨none, none, none, some []⟩
      (by decide) (by decide) (by decide) rfl rfl (by decide)⟩

/-- C8 counterexample: a dataset already holding two racks with code "A01"
still holds two after calling the upsert twice with code "A01" and the same
coordinates — not exactly one. -/
theorem upsert_idem_duplicates_counterexample :
    upsertRack ⟨some ("A01"), .finite 1, .finite 2⟩
        (upsertRack ⟨some ("A01"), .finite 1, .finite 2⟩
          ⟨some ⟨none, none, none, some [⟨"Ra", "A01", .finite 0, .finite 0⟩,
            ⟨"Rb", "A01", .finite 3, .finite 3⟩]⟩, true⟩).world =
      ⟨.ok ("Rack A01 berhasil disimpan") ⟨"Ra", "A01", .finite 1, .finite 2⟩,
        ⟨some ⟨none, none, none, some [⟨"Ra", "A01", .finite 1, .finite 2⟩,
          ⟨"Rb", "A01", .finite 3, .finite 3⟩]⟩, true⟩,
        [.load, .save]⟩ ∧
    ((((⟨none, none, none, some [⟨"Ra", "A01", .finite 1, .finite 2⟩,
        ⟨"Rb", "A01", .finite 3, .finite 3⟩]⟩ : DB)).racks.getD []).filter
        (fun r => r.code == ("A01"))).length = 2 := by
  constructor
  · decide
  · decide

/-- C9: search is total over partially-missing data — with readable storage
it always answers `ok`; a dataset whose `items` and `racks` arrays are
replaced by their empty-defaulted versions yields the same response; and an
item with an absent `name` (or `code`) matches exactly as if that field were
the empty string. -/
theorem search_total_missing_fields (qparam : String) (w : World) (db : DB)
    (hdb : w.store = some db) (hq : normQuery (some qparam) ≠ "") :
    (∃ results : List ResultRec,
      searchHandler (some qparam) w =
        ⟨.ok (normQuery (some qparam)) results.length results, w, [.load]⟩) ∧
    ((searchHandler (some qparam) w).resp =
      (searchHandler (some qparam)
        ⟨some { db with items := some (db.items.getD []), racks := some (db.racks.getD []) },
          w.saveOk⟩).resp) ∧
    (db.items = none →
      searchHandler (some qparam) w = ⟨.ok (normQuery (some qparam)) 0 [], w, [.load]⟩) ∧
    (∀ it : Item,
      itemMatches (normQuery (some qparam)) { it with name := none } =
        itemMatches (normQuery (some qparam)) { it with name := some ("") }) ∧
    (∀ it : Item,
      itemMatches (normQuery (some qparam)) { it with code := none } =
        itemMatches (normQuery (some qparam)) { it with code := some ("") }) := by
  obtain ⟨store, sOk⟩ := w
  cases hdb
  refine ⟨⟨((db.items.getD []).filter (itemMatches (normQuery (some qparam)))).map
      (renderItem (db.racks.getD [])), by simp [searchHandler, loadDB, hq]⟩, ?_, ?_, ?_, ?_⟩
  · simp [searchHandler, loadDB, hq]
  · intro h
    simp [searchHandler, loadDB, hq, h]
  · intro it
    rfl
  · intro it
    rfl

/-- C9 witness: a dataset with no `items` and no `racks` arrays still
answers, with an empty result set. -/
theorem search_total_missing_fields_witness :
    normQuery (some ("x")) ≠ "" ∧
    ((∃ results : List ResultRec,
      searchHandler (some ("x")) ⟨some ⟨none, none, none, none⟩, true⟩ =
        ⟨.ok (normQuery (some ("x"))) results.length results,
          ⟨some ⟨none, none, none, none⟩, true⟩, [.load]⟩) ∧
    ((searchHandler (some ("x")) ⟨some ⟨none, none, none, none⟩, true⟩).resp =
      (searchHandler (some ("x"))
        ⟨some { (⟨none, none, none, none⟩ : DB) with
            items := some ((⟨none, none, none, none⟩ : DB).items.getD []),
            racks := some ((⟨none, none, none, none⟩ : DB).racks.getD []) },
          (⟨some ⟨none, none, none, none⟩, true⟩ : World).saveOk⟩).resp) ∧
    ((⟨none, none, none, none⟩ : DB).items = none →
      searchHandler (some ("x")) ⟨some ⟨none, none, none, none⟩, true⟩ =
        ⟨.ok (normQuery (some ("x"))) 0 [], ⟨some ⟨none, none, none, none⟩, true⟩,
          [.load]⟩) ∧
    (∀ it : Item,
      itemMatches (normQuery (some ("x"))) { it with name := none } =
        itemMatches (normQuery (some ("x"))) { it with name := some ("") }) ∧
    (∀ it : Item,
      itemMatches (normQuery (some ("x"))) { it with code := none } =
        itemMatches (normQuery (some ("x"))) { it with code := some ("") })) :=
  ⟨by decide,
    search_total_missing_fields ("x") ⟨some ⟨none, none, none, none⟩, true⟩
      ⟨none, none, none, none⟩ rfl (by decide)⟩

/-- C10: the read-only handlers never write — for every query and every
storage state, search and the map endpoint leave the world exactly as it
was and perform no save event. -/
theorem read_only_no_save (qparam : Option String) (w : World) :
    (searchHandler qparam w).world = w ∧
    StorageEvent.save ∉ (searchHandler qparam w).events ∧
    (mapHandler w).world = w ∧
    StorageEvent.save ∉ (mapHandler w).events := by
  obtain ⟨store, sOk⟩ := w
  refine ⟨?_, ?_, ?_, ?_⟩
  · by_cases hq : normQuery qparam = "" <;> cases store <;> simp [searchHandler, loadDB, hq]
  · by_cases hq : normQuery qparam = "" <;> cases store <;> simp [searchHandler, loadDB, hq]
  · cases store <;> simp [mapHandler, loadDB]
  · cases store <;> simp [mapHandler, loadDB]

end Locator
